import Mathlib

/-!
Verification development for the trinetra live session mirroring and control
subsystem. The definitions below are shallow embeddings of the TypeScript
source (server db module, tmux adapter, phase detector, websocket handler and
session routes); the theorems settle the frozen specification claims.
-/

set_option maxHeartbeats 1000000

namespace Trinetra

/-- Session status enumeration from the shared package. -/
inductive SessionStatus where
  | RUNNING
  | IDLE
  | EXITED
  | ERROR
deriving DecidableEq, Repr

/-- Session phase enumeration from the shared package. -/
inductive SessionPhase where
  | BUILDING
  | TESTING
  | CODING
  | IDLE
  | WAITING
  | ERROR
deriving DecidableEq, Repr

/-- Input delivery mode from the shared package. -/
inductive InputMode where
  | RAW
  | COMMAND
deriving DecidableEq, Repr

/-- Session record as stored in the sessions table and returned by the API.
Timestamps are ISO strings in the source; they stay strings here. The
optional discovered flag of the TS type is a plain Bool, false for persisted
records. -/
structure Session where
  id : String
  tmuxSession : String
  workspaceId : Option String
  title : String
  status : SessionStatus
  phase : Option SessionPhase
  activePane : String
  createdAt : String
  lastActivityAt : String
  discovered : Bool
deriving DecidableEq, Repr

/-- Template record fields used by the session creation route. -/
structure Template where
  name : String
  command : String
  autoRun : Bool
  preCommands : List String
deriving DecidableEq, Repr

namespace Db

/-- Embeds getSessionById from db.ts: first row whose id matches. -/
def getSessionById (db : List Session) (id : String) : Option Session :=
  db.find? (fun s => s.id == id)

/-- Embeds getSessionByTmuxSession from db.ts: first row whose tmuxSession
matches. -/
def getSessionByTmuxSession (db : List Session) (tmuxSession : String) : Option Session :=
  db.find? (fun s => s.tmuxSession == tmuxSession)

/-- Embeds updateSessionStatus from db.ts. The SQL statement sets status,
phase and lastActivityAt on the row with the given id; the JS expression
phase-or-null stores null exactly when the optional phase argument is
absent, which the Option argument models directly. -/
def updateSessionStatus (db : List Session) (id : String) (status : SessionStatus)
    (phase : Option SessionPhase) (now : String) : List Session :=
  db.map (fun s =>
    if s.id == id then { s with status := status, phase := phase, lastActivityAt := now } else s)

/-- Embeds updateSessionActivity from db.ts: sets lastActivityAt on the row
with the given id. -/
def updateSessionActivity (db : List Session) (id : String) (now : String) : List Session :=
  db.map (fun s => if s.id == id then { s with lastActivityAt := now } else s)

/-- Embeds createSession from db.ts: inserts a fresh row with activePane 0.0
and both timestamps set to now. -/
def createSession (db : List Session) (id tmuxSession title : String) (status : SessionStatus)
    (workspaceId : Option String) (phase : Option SessionPhase) (now : String) : List Session :=
  db ++ [{ id := id, tmuxSession := tmuxSession, workspaceId := workspaceId, title := title,
           status := status, phase := phase, activePane := "0.0", createdAt := now,
           lastActivityAt := now, discovered := false }]

end Db

/-- Checks whether the second character list is a leading segment of the
first. -/
def startsWithList : List Char → List Char → Bool
  | _, [] => true
  | [], _ :: _ => false
  | x :: xs, y :: ys => x == y && startsWithList xs ys

/-- Checks whether the second character list occurs contiguously inside the
first. -/
def infixOfList (hay needle : List Char) : Bool :=
  startsWithList hay needle ||
    match hay with
    | [] => false
    | _ :: xs => infixOfList xs needle

/-- String version of the leading-segment test, the counterpart of the JS
String.startsWith used on session names. -/
def strStartsWith (s pre : String) : Bool :=
  startsWithList s.data pre.data

/-- Substring containment on strings, modelling the JS String.includes used
by listSessions on the stderr text. -/
def strIncludes (hay needle : String) : Bool :=
  infixOfList hay.data needle.data

/-- ASCII lowercasing of a string, the counterpart of the JS toLowerCase
applied to the tmux error text. -/
def strToLower (s : String) : String :=
  String.mk (s.data.map Char.toLower)

/-- Splits a character list at every occurrence of the separator, the
counterpart of the JS String.split with a one-character separator. -/
def splitListOn (sep : Char) : List Char → List (List Char)
  | [] => [[]]
  | c :: cs =>
    match splitListOn sep cs with
    | [] => if c == sep then [[], []] else [[c]]
    | g :: gs => if c == sep then [] :: g :: gs else (c :: g) :: gs

/-- Joins character lists with the separator between them, the counterpart
of the JS Array.join with a one-character separator. -/
def joinListOn (sep : Char) : List (List Char) → List Char
  | [] => []
  | [l] => l
  | l :: ls => l ++ sep :: joinListOn sep ls

/-- String-level split on a one-character separator. -/
def jsSplit (sep : Char) (s : String) : List String :=
  (splitListOn sep s.data).map String.mk

/-- Removes whitespace from both ends of a character list. -/
def trimList (l : List Char) : List Char :=
  ((l.dropWhile Char.isWhitespace).reverse.dropWhile Char.isWhitespace).reverse

/-- String trim, the counterpart of the JS String.trim applied to the tmux
standard output. -/
def jsTrim (s : String) : String :=
  String.mk (trimList s.data)

/-- Lexicographic order on character lists. -/
def leList : List Char → List Char → Bool
  | [], _ => true
  | _ :: _, [] => false
  | x :: xs, y :: ys => if x == y then leList xs ys else decide (x < y)

/-- Lexicographic string order, modelling the ordering the storage layer
applies to the ISO timestamp strings in ORDER BY lastActivityAt DESC. -/
def tsLe (a b : String) : Bool :=
  leList a.data b.data

namespace Tmux

/-- Decides whether a nonzero list-sessions exit carries one of the known
no-server or no-sessions error texts, per the lowercased stderr checks in
tmux.ts. -/
def knownNoSessionsErr (stderr : String) : Bool :=
  let e := strToLower stderr
  strIncludes e "no server running" ||
  strIncludes e "no sessions" ||
  strIncludes e "error connecting" ||
  strIncludes e "no such file or directory"

/-- Embeds listSessions from tmux.ts as a function of the subprocess result:
nonzero exit with a known error text yields the empty list, any other
nonzero exit is an error, and success keeps exactly the reported names with
the ccp underscore namespace. -/
def listSessions (code : Int) (stdout stderr : String) : Except String (List String) :=
  if code != 0 then
    if knownNoSessionsErr stderr then
      Except.ok []
    else
      Except.error ("Failed to list tmux sessions: " ++ stderr)
  else
    Except.ok ((jsSplit '\n' (jsTrim stdout)).filter (fun name => strStartsWith name "ccp_"))

end Tmux

namespace PhaseDetector

/-- Regex item: one element of a pattern, covering exactly the constructs
used by the phase detector patterns (literal characters, one-or-more digits,
an optional character, a word boundary assertion, and the end anchor). -/
inductive RItem where
  | ch (c : Char)
  | digitPlus
  | opt (c : Char)
  | wb
  | eos
deriving DecidableEq, Repr

/-- Regex: item sequence plus the case-insensitive flag. -/
structure Regex where
  ci : Bool
  items : List RItem
deriving DecidableEq, Repr

/-- Character comparison under the optional case-insensitive flag; the JS
engine folds case, which for the ASCII patterns used here is toLower on both
sides. -/
def chEq (ci : Bool) (p c : Char) : Bool :=
  if ci then p.toLower == c.toLower else p == c

/-- Word character test matching the JS word-boundary class: ASCII letters,
digits and underscore. -/
def isWordChar (c : Char) : Bool :=
  c.isAlphanum || c == '_'

/-- Word boundary test between the previously consumed character (none at
the start of the input) and the rest of the input. -/
def atBoundary (prev : Option Char) (s : List Char) : Bool :=
  let l := match prev with | some c => isWordChar c | none => false
  let r := match s with | x :: _ => isWordChar x | [] => false
  l != r

/-- Consumes one or more digits and tries the continuation after each
consumed digit, giving the match-anywhere semantics of a greedy one-or-more
digit class. -/
def tryDigits (k : Option Char → List Char → Bool) : List Char → Bool
  | [] => false
  | x :: xs => x.isDigit && (k (some x) xs || tryDigits k xs)

/-- Matches an item sequence against the beginning of the input, tracking
the previously consumed character for boundary assertions. -/
def matchItems (ci : Bool) : List RItem → Option Char → List Char → Bool
  | [], _, _ => true
  | RItem.ch c :: rest, _, x :: xs => chEq ci c x && matchItems ci rest (some x) xs
  | RItem.ch _ :: _, _, [] => false
  | RItem.digitPlus :: rest, _, s =>
      tryDigits (fun p t => matchItems ci rest p t) s
  | RItem.opt c :: rest, prev, x :: xs =>
      (chEq ci c x && matchItems ci rest (some x) xs) || matchItems ci rest prev (x :: xs)
  | RItem.opt _ :: rest, prev, [] => matchItems ci rest prev []
  | RItem.wb :: rest, prev, s => atBoundary prev s && matchItems ci rest prev s
  | RItem.eos :: rest, prev, s => s.isEmpty && matchItems ci rest prev s

/-- Tries a match at every starting position of the input. -/
def testAux (ci : Bool) (items : List RItem) (prev : Option Char) (s : List Char) : Bool :=
  matchItems ci items prev s ||
    match s with
    | [] => false
    | x :: xs => testAux ci items (some x) xs

/-- Regex test against a string, the counterpart of the JS RegExp test
method for the patterns of the phase detector. -/
def rtest (r : Regex) (s : String) : Bool :=
  testAux r.ci r.items none s.data

/-- Builds literal items from a string. -/
def lit (s : String) : List RItem :=
  s.data.map RItem.ch

/-- Case-insensitive literal pattern. -/
def ciLit (s : String) : Regex :=
  { ci := true, items := lit s }

/-- Case-sensitive literal pattern. -/
def csLit (s : String) : Regex :=
  { ci := false, items := lit s }

/-- Case-insensitive whole-word literal pattern. -/
def ciWord (s : String) : Regex :=
  { ci := true, items := RItem.wb :: lit s ++ [RItem.wb] }

/-- Case-sensitive whole-word literal pattern. -/
def csWord (s : String) : Regex :=
  { ci := false, items := RItem.wb :: lit s ++ [RItem.wb] }

/-- One phase pattern set entry of the detector table. -/
structure PhasePattern where
  phase : SessionPhase
  patterns : List Regex
  priority : Int
deriving DecidableEq, Repr

/-- The WAITING entry of the phasePatterns table. -/
def waitingPatterns : PhasePattern :=
    { phase := SessionPhase.WAITING,
      patterns :=
        [ ciLit "[y/n]",
          csLit "[Y/n]",
          ciLit "[yes/no]",
          ciLit "continue?",
          ciLit "proceed?",
          ciLit "Press Enter",
          ciLit "Press any key",
          ciLit "(y/n)",
          ciLit "Confirm?",
          ciLit "Are you sure?",
          ciLit "Overwrite?",
          { ci := false, items := lit ": " ++ [RItem.eos] },
          { ci := false, items := lit "? " ++ [RItem.eos] } ],
      priority := 100 }

/-- The ERROR entry of the phasePatterns table. -/
def errorPatterns : PhasePattern :=
    { phase := SessionPhase.ERROR,
      patterns :=
        [ csWord "FAIL",
          csWord "ERROR",
          { ci := true, items := RItem.wb :: lit "error:" },
          ciWord "failed",
          csLit "AssertionError",
          csLit "TypeError",
          csLit "ReferenceError",
          csLit "SyntaxError",
          csLit "ENOENT",
          csLit "EACCES",
          csLit "ECONNREFUSED",
          csLit "Exception",
          csLit "Traceback",
          csLit "panic:",
          ciLit "fatal:",
          csLit "npm ERR!",
          ciLit "yarn error" ],
      priority := 90 }

/-- The TESTING entry of the phasePatterns table. -/
def testingPatterns : PhasePattern :=
    { phase := SessionPhase.TESTING,
      patterns :=
        [ ciWord "test",
          ciWord "jest",
          ciWord "pytest",
          ciWord "mocha",
          ciWord "vitest",
          csWord "PASS",
          csWord "FAILED",
          ciLit "running tests",
          ciLit "test suite",
          { ci := true, items := RItem.wb :: lit "spec" ++ [RItem.opt 's', RItem.wb] },
          { ci := false, items := RItem.digitPlus :: lit " passing" },
          { ci := false, items := RItem.digitPlus :: lit " failing" },
          ciLit "Test Results",
          csLit "===== test session starts =====" ],
      priority := 80 }

/-- The BUILDING entry of the phasePatterns table. -/
def buildingPatterns : PhasePattern :=
    { phase := SessionPhase.BUILDING,
      patterns :=
        [ ciWord "build",
          { ci := true, items := RItem.wb :: lit "compil" },
          ciWord "webpack",
          ciWord "vite",
          ciWord "esbuild",
          ciWord "rollup",
          csWord "tsc",
          ciWord "parcel",
          { ci := true, items := RItem.wb :: lit "bundl" },
          ciLit "Building...",
          ciLit "Compiling...",
          ciLit "Starting production build",
          ciLit "Build succeeded",
          ciLit "Build failed",
          ciLit "Generating..." ],
      priority := 70 }

/-- The CODING entry of the phasePatterns table. -/
def codingPatterns : PhasePattern :=
    { phase := SessionPhase.CODING,
      patterns :=
        [ ciWord "claude",
          ciWord "codex",
          ciWord "cursor",
          ciWord "copilot",
          ciWord "codewhisperer",
          ciWord "aider",
          ciWord "gpt-4",
          ciWord "openai",
          ciLit "AI assistant",
          ciLit "Thinking...",
          ciLit "Generating code" ],
      priority := 60 }

/-- Embeds the phasePatterns table of phase-detector.ts, in source order. -/
def phasePatterns : List PhasePattern :=
  [waitingPatterns, errorPatterns, testingPatterns, buildingPatterns, codingPatterns]

/-- Last-n slice of a list, modelling the JS negative-index slice used to
take the trailing lines (slice with argument minus n keeps the whole list
when n is zero). -/
def sliceLast {α : Type} (l : List α) (n : Nat) : List α :=
  if n = 0 then l else l.drop (l.length - n)

/-- Trailing window of the output analysed by the detector: last n lines
joined back with newlines. -/
def phaseWindow (output : String) (lastNLines : Nat) : String :=
  String.mk (joinListOn '\n' (sliceLast (splitListOn '\n' output.data) lastNLines))

/-- Whether any pattern of a set matches the window. -/
def setMatches (ps : PhasePattern) (w : String) : Bool :=
  ps.patterns.any (fun p => rtest p w)

/-- The scan loop of detectPhase: walks the pattern sets keeping the
highest-priority phase whose set matched, starting from IDLE at priority
minus one. -/
def detectPhaseLoop (w : String) : List PhasePattern → SessionPhase → Int → SessionPhase
  | [], acc, _ => acc
  | ps :: rest, acc, hp =>
    if setMatches ps w then
      if hp < ps.priority then detectPhaseLoop w rest ps.phase ps.priority
      else detectPhaseLoop w rest acc hp
    else detectPhaseLoop w rest acc hp

/-- Embeds detectPhase from phase-detector.ts: classify the trailing window
of the output, defaulting to the last fifty lines. -/
def detectPhase (output : String) (lastNLines : Nat := 50) : SessionPhase :=
  detectPhaseLoop (phaseWindow output lastNLines) phasePatterns SessionPhase.IDLE (-1)

end PhaseDetector

namespace Ws

/-- Subscription record of the websocket handler: one per active pane watch
on a connection, holding the diff baseline and the poll timer handle. -/
structure Subscription where
  sessionId : String
  paneKey : String
  tmuxTarget : String
  intervalId : Nat
  lastContent : String
deriving DecidableEq, Repr

/-- Connection-local engine state: the subscriptions map keyed by the
joined session and pane key, plus the set of running interval timers and a
fresh-timer counter standing for the timer handles the runtime allocates. -/
structure EngineState where
  subs : List (String × Subscription)
  timers : List Nat
  nextTimer : Nat
deriving DecidableEq, Repr

/-- The engine state of a freshly opened connection. -/
def emptyEngine : EngineState :=
  { subs := [], timers := [], nextTimer := 0 }

/-- Outbound server messages relevant to the subscription engine. -/
inductive OutMsg where
  | snapshot (sessionId paneKey text : String)
  | statusMsg (sessionId : String) (status : SessionStatus) (phase : Option SessionPhase)
      (lastActivityAt : String)
  | errorMsg (message : String)
deriving DecidableEq, Repr

/-- Whether a message is a snapshot push. -/
def OutMsg.isSnapshot : OutMsg → Bool
  | OutMsg.snapshot _ _ _ => true
  | _ => false

/-- The joined subscription key, written sessionId colon paneKey in the
handler. -/
def subKey (sessionId paneKey : String) : String :=
  sessionId ++ ":" ++ paneKey

/-- Map lookup in the subscriptions table. -/
def lookupSub (st : EngineState) (k : String) : Option Subscription :=
  (st.subs.find? (fun p => p.1 == k)).map (fun p => p.2)

/-- Session resolution shared by the subscribe, input and key handlers:
lookup by id, then by tmux session name. -/
def resolveSession (db : List Session) (sessionId : String) : Option Session :=
  match Db.getSessionById db sessionId with
  | some s => some s
  | none => Db.getSessionByTmuxSession db sessionId

/-- The tmux session name used to form the pane target: the resolved record
name, or the raw sessionId when no record matches. -/
def tmuxNameFor (db : List Session) (sessionId : String) : String :=
  match resolveSession db sessionId with
  | some s => s.tmuxSession
  | none => sessionId

/-- Embeds handleSubscribe from websocket.ts. Existing subscriptions are
left untouched; otherwise the initial capture, whose success and text are
inputs here, is pushed as a snapshot plus a status message, the registry
phase is refreshed when a record resolves, and a poll interval is started
with an empty lastContent baseline. A failed capture sends an error and
creates nothing. -/
def handleSubscribe (st : EngineState) (db : List Session) (sessionId paneKey : String)
    (captureOk : Bool) (initial : String) (now : String) :
    EngineState × List Session × List OutMsg :=
  let k := subKey sessionId paneKey
  if (lookupSub st k).isSome then (st, db, [])
  else
    let session := resolveSession db sessionId
    let tmuxTarget := tmuxNameFor db sessionId ++ ":" ++ paneKey
    if captureOk then
      let phase := PhaseDetector.detectPhase initial
      let db' :=
        match session with
        | some s => Db.updateSessionStatus db s.id s.status (some phase) now
        | none => db
      let status :=
        match session with
        | some s => s.status
        | none => SessionStatus.RUNNING
      let msgs := [OutMsg.snapshot sessionId paneKey initial,
                   OutMsg.statusMsg sessionId status (some phase) now]
      let tid := st.nextTimer
      ({ subs := (k, { sessionId := sessionId, paneKey := paneKey, tmuxTarget := tmuxTarget,
                       intervalId := tid, lastContent := "" }) :: st.subs,
         timers := tid :: st.timers,
         nextTimer := st.nextTimer + 1 }, db', msgs)
    else
      (st, db, [OutMsg.errorMsg "Failed to capture pane"])

/-- Embeds handleUnsubscribe from websocket.ts: clear the interval and drop
the table entry when the key is active, otherwise do nothing. -/
def handleUnsubscribe (st : EngineState) (sessionId paneKey : String) : EngineState :=
  let k := subKey sessionId paneKey
  match lookupSub st k with
  | some sub =>
      { st with subs := st.subs.filter (fun p => p.1 != k),
                timers := st.timers.erase sub.intervalId }
  | none => st

/-- Embeds one firing of the poll interval callback created by
handleSubscribe, for the subscription under the given key. The capture
result is an input; a capture failure tears the one subscription down. On a
successful capture a snapshot and status are pushed exactly when the text
differs from the stored lastContent, refreshing the baseline, the registry
phase and the activity timestamp. -/
def pollTick (st : EngineState) (db : List Session) (k : String) (captureOk : Bool)
    (content : String) (now : String) : EngineState × List Session × List OutMsg :=
  if captureOk then
    match lookupSub st k with
    | some sub =>
      if content != sub.lastContent then
        let st' := { st with
          subs := st.subs.map (fun p =>
            if p.1 == k then (p.1, { p.2 with lastContent := content }) else p) }
        let phase := PhaseDetector.detectPhase content
        let currentSession := Db.getSessionById db sub.sessionId
        let db' :=
          match currentSession with
          | some s =>
              Db.updateSessionActivity
                (Db.updateSessionStatus db s.id s.status (some phase) now) s.id now
          | none => db
        let status :=
          match currentSession with
          | some s => s.status
          | none => SessionStatus.RUNNING
        (st', db', [OutMsg.snapshot sub.sessionId sub.paneKey content,
                    OutMsg.statusMsg sub.sessionId status (some phase) now])
      else (st, db, [])
    | none => (st, db, [])
  else
    match lookupSub st k with
    | some sub =>
        ({ st with subs := st.subs.filter (fun p => p.1 != k),
                   timers := st.timers.erase sub.intervalId }, db, [])
    | none => (st, db, [])

/-- Embeds handleInput from websocket.ts: resolve the record, form the
target from the resolved or raw name, deliver the text, and refresh the
activity timestamp only when a record resolved and delivery succeeded. The
returned string is the tmux target the keys were sent to. -/
def handleInput (db : List Session) (sessionId paneKey : String) (sendOk : Bool)
    (now : String) : String × List Session × List OutMsg :=
  let session := resolveSession db sessionId
  let target := tmuxNameFor db sessionId ++ ":" ++ paneKey
  if sendOk then
    match session with
    | some s => (target, Db.updateSessionActivity db s.id now, [])
    | none => (target, db, [])
  else
    (target, db, [OutMsg.errorMsg "Failed to send input"])

/-- The fixed key lookup table of handleKey. -/
def keyMap : List (String × String) :=
  [("C-c", "C-c"), ("C-z", "C-z"), ("Enter", "Enter"), ("Escape", "Escape"),
   ("Up", "Up"), ("Down", "Down"), ("Left", "Left"), ("Right", "Right"),
   ("Tab", "Tab"), ("Space", "Space"), ("1", "1"), ("2", "2"), ("3", "3"),
   ("4", "4"), ("5", "5"), ("y", "y"), ("n", "n")]

/-- Embeds handleKey from websocket.ts: same resolution and activity rules
as handleInput, with the key name mapped through the table and passed
through verbatim when absent. The first returned string is the target, the
second the tmux key actually sent. -/
def handleKey (db : List Session) (sessionId paneKey key : String) (sendOk : Bool)
    (now : String) : String × String × List Session × List OutMsg :=
  let session := resolveSession db sessionId
  let target := tmuxNameFor db sessionId ++ ":" ++ paneKey
  let tmuxKey :=
    match (keyMap.find? (fun p => p.1 == key)).map (fun p => p.2) with
    | some k => k
    | none => key
  if sendOk then
    match session with
    | some s => (target, tmuxKey, Db.updateSessionActivity db s.id now, [])
    | none => (target, tmuxKey, db, [])
  else
    (target, tmuxKey, db, [OutMsg.errorMsg "Failed to send key"])

/-- Structural invariant of the connection engine state: the subscriptions
map has no duplicate keys, every running timer handle is distinct, and all
allocated handles are below the fresh counter. -/
def Inv (st : EngineState) : Prop :=
  (st.subs.map Prod.fst).Nodup ∧ st.timers.Nodup ∧
  (∀ p ∈ st.subs, p.2.intervalId < st.nextTimer) ∧
  (∀ t ∈ st.timers, t < st.nextTimer)

end Ws

namespace Routes

/-- Registry write performed by the reconciling list route: one
updateSessionStatus call with no phase argument. -/
structure RegWrite where
  id : String
  status : SessionStatus
deriving DecidableEq, Repr

/-- The synthesized unified record for a live tmux session with no
persisted row, as built by the list route. -/
def discoveredOf (tmuxSession now : String) : Session :=
  { id := tmuxSession, tmuxSession := tmuxSession, workspaceId := none, title := tmuxSession,
    status := SessionStatus.RUNNING, phase := none, activePane := "0.0", createdAt := now,
    lastActivityAt := now, discovered := true }

/-- The per-record loop of the list route, threading the registry through
the status writes and accumulating the response rows and the writes in
order. -/
def reconcileCore (live : List String) (now : String) (cur : List Session) :
    List Session → List Session × List Session × List RegWrite
  | [] => (cur, [], [])
  | s :: rest =>
    let isRunning := live.contains s.tmuxSession
    if isRunning && (s.status == SessionStatus.EXITED) then
      let cur' := Db.updateSessionStatus cur s.id SessionStatus.RUNNING none now
      let r := reconcileCore live now cur' rest
      (r.1, { s with status := SessionStatus.RUNNING } :: r.2.1,
        { id := s.id, status := SessionStatus.RUNNING } :: r.2.2)
    else if (!isRunning) && (s.status == SessionStatus.RUNNING) then
      let cur' := Db.updateSessionStatus cur s.id SessionStatus.EXITED none now
      let r := reconcileCore live now cur' rest
      (r.1, { s with status := SessionStatus.EXITED } :: r.2.1,
        { id := s.id, status := SessionStatus.EXITED } :: r.2.2)
    else
      let r := reconcileCore live now cur rest
      (r.1, s :: r.2.1, r.2.2)

/-- Embeds the list route of sessions.ts: reconcile every persisted record
against the live name list, then append a synthesized discovered row for
each live name with no persisted record. Returns the registry after the
status writes, the response list, and the writes issued. -/
def reconcileRun (db : List Session) (live : List String) (now : String) :
    List Session × List Session × List RegWrite :=
  let r := reconcileCore live now db db
  let seen := db.map (fun s => s.tmuxSession)
  let discovered := (live.filter (fun t => !(seen.contains t))).map
    (fun t => discoveredOf t now)
  (r.1, r.2.1 ++ discovered, r.2.2)

/-- Embeds the kill route of sessions.ts as its registry effect: the tmux
kill is attempted and tolerated either way, and the record, when one
matches the id, is marked EXITED through updateSessionStatus with no
phase. -/
def killRoute (db : List Session) (paramId : String) (now : String) : List Session :=
  match Db.getSessionById db paramId with
  | some s => Db.updateSessionStatus db s.id SessionStatus.EXITED none now
  | none => db

/-- Embeds the create route of sessions.ts as its registry effect. The
external invocations are inputs: whether the tmux create succeeded, whether
the pipe-pane setup succeeded, which preamble command failed if any, and
whether the autorun send succeeded. The registry row is inserted only after
both the tmux create and the pipe-pane setup succeed, and is never removed
when a later preamble or autorun step fails; the Bool result is whether the
route answers with the created status. -/
def createRoute (db : List Session) (id tmuxSessionName sessionTitle : String)
    (workspaceId : Option String) (template : Option Template) (now : String)
    (tmuxCreateOk pipeOk : Bool) (preFail : Option Nat) (autoRunOk : Bool) :
    List Session × Bool :=
  if !tmuxCreateOk then (db, false)
  else if !pipeOk then (db, false)
  else
    let db' := Db.createSession db id tmuxSessionName sessionTitle SessionStatus.RUNNING
      workspaceId (some SessionPhase.IDLE) now
    match template with
    | none => (db', true)
    | some t =>
      match preFail with
      | some i => if i < t.preCommands.length then (db', false)
                  else if t.autoRun && (t.command != "") && !autoRunOk then (db', false)
                  else (db', true)
      | none => if t.autoRun && (t.command != "") && !autoRunOk then (db', false)
                else (db', true)

/-- Per-record response row of the list route: the record with its status
flipped when the live list disagrees with it. -/
def viewOf (live : List String) (s : Session) : Session :=
  if live.contains s.tmuxSession && (s.status == SessionStatus.EXITED) then
    { s with status := SessionStatus.RUNNING }
  else if (!live.contains s.tmuxSession) && (s.status == SessionStatus.RUNNING) then
    { s with status := SessionStatus.EXITED }
  else s

/-- Per-record registry write of the list route, when the record needs a
status flip. -/
def writeOf (live : List String) (s : Session) : Option RegWrite :=
  if live.contains s.tmuxSession && (s.status == SessionStatus.EXITED) then
    some { id := s.id, status := SessionStatus.RUNNING }
  else if (!live.contains s.tmuxSession) && (s.status == SessionStatus.RUNNING) then
    some { id := s.id, status := SessionStatus.EXITED }
  else none

/-- Effect of one reconciliation write on one registry row. -/
def stepWrite (now : String) (t : Session) (w : RegWrite) : Session :=
  if t.id == w.id then { t with status := w.status, phase := none, lastActivityAt := now }
  else t

/-- Sequential application of reconciliation writes to the registry, each
through updateSessionStatus with no phase. -/
def applyWrites (db : List Session) (ws : List RegWrite) (now : String) : List Session :=
  ws.foldl (fun d w => Db.updateSessionStatus d w.id w.status none now) db

/-- The registry row inserted by the create route once the tmux session and
the log pipe are set up. -/
def newSessionRecord (id tmuxSessionName sessionTitle : String)
    (workspaceId : Option String) (now : String) : Session :=
  { id := id, tmuxSession := tmuxSessionName, workspaceId := workspaceId,
    title := sessionTitle, status := SessionStatus.RUNNING,
    phase := some SessionPhase.IDLE, activePane := "0.0", createdAt := now,
    lastActivityAt := now, discovered := false }

end Routes

/-- Sample registry row used by concrete witness instances. -/
def sampleA : Session :=
  { id := "a", tmuxSession := "ccp_a", workspaceId := none, title := "alpha",
    status := SessionStatus.RUNNING, phase := some SessionPhase.CODING, activePane := "0.0",
    createdAt := "A0", lastActivityAt := "A1", discovered := false }

/-- Second sample registry row used by concrete witness instances. -/
def sampleB : Session :=
  { id := "b", tmuxSession := "ccp_b", workspaceId := none, title := "beta",
    status := SessionStatus.EXITED, phase := none, activePane := "0.0",
    createdAt := "B0", lastActivityAt := "B1", discovered := false }

/-- Sample template used by concrete witness instances. -/
def sampleTemplate : Template :=
  { name := "tpl", command := "run", autoRun := true, preCommands := ["a", "b"] }

/-- Sample subscription used by concrete witness instances: the entry
handleSubscribe creates on a fresh connection. -/
def sampleSub : Ws.Subscription :=
  { sessionId := "s1", paneKey := "0.0", tmuxTarget := "s1:0.0", intervalId := 0,
    lastContent := "" }

/-- Sample engine state with one active subscription. -/
def sampleEngine : Ws.EngineState :=
  { subs := [(Ws.subKey "s1" "0.0", sampleSub)], timers := [0], nextTimer := 1 }

/-- C8: a nonzero list-sessions exit whose error text carries one of the
known no-server, no-sessions, error-connecting or no-such-file messages
(checked case-insensitively) yields the empty list; any other nonzero exit
raises an error; success keeps exactly the reported names with the owned
ccp underscore namespace. -/
theorem listSessions_errorHandling (code : Int) (stdout stderr : String) :
    (code ≠ 0 → Tmux.knownNoSessionsErr stderr = true →
      Tmux.listSessions code stdout stderr = Except.ok []) ∧
    (code ≠ 0 → Tmux.knownNoSessionsErr stderr = false →
      Tmux.listSessions code stdout stderr =
        Except.error ("Failed to list tmux sessions: " ++ stderr)) ∧
    (code = 0 →
      ∃ names, Tmux.listSessions code stdout stderr = Except.ok names ∧
        ∀ n, n ∈ names ↔ n ∈ jsSplit '\n' (jsTrim stdout) ∧ strStartsWith n "ccp_" = true) := by
  refine ⟨fun hc hk => ?_, fun hc hk => ?_, fun hc => ?_⟩
  · simp [Tmux.listSessions, bne_iff_ne, hc, hk]
  · simp [Tmux.listSessions, bne_iff_ne, hc, hk]
  · subst hc
    refine ⟨(jsSplit '\n' (jsTrim stdout)).filter (fun name => strStartsWith name "ccp_"),
      rfl, fun n => ?_⟩
    simp [List.mem_filter]

/-- Witness for the C8 theorem at a concrete nonzero exit with a known
error text. -/
theorem listSessions_errorHandling_witness :
    Tmux.listSessions 1 "" "no server running (connection refused)" = Except.ok [] :=
  (listSessions_errorHandling 1 "" "no server running (connection refused)").1
    (by decide) (by rfl)

/-- C9: updateSessionStatus called without a phase argument nulls the
stored phase and overwrites lastActivityAt with the current time on the
record with the given id, leaves its remaining fields unchanged, leaves
every other record untouched, and the kill route issues exactly such a
write for the matched record. -/
theorem updateSessionStatus_noPhase_frame (db : List Session) (id : String)
    (status : SessionStatus) (now : String) :
    (∀ s ∈ db, s.id = id →
      { s with status := status, phase := none, lastActivityAt := now } ∈
        Db.updateSessionStatus db id status none now) ∧
    (∀ s ∈ db, s.id ≠ id → s ∈ Db.updateSessionStatus db id status none now) ∧
    (∀ s' ∈ Db.updateSessionStatus db id status none now,
      ∃ s ∈ db, s'.id = s.id ∧ s'.tmuxSession = s.tmuxSession ∧ s'.title = s.title ∧
        s'.activePane = s.activePane ∧ s'.workspaceId = s.workspaceId ∧
        s'.createdAt = s.createdAt ∧ s'.discovered = s.discovered ∧
        (s.id = id → s'.status = status ∧ s'.phase = none ∧ s'.lastActivityAt = now) ∧
        (s.id ≠ id → s' = s)) ∧
    (∀ pid s, Db.getSessionById db pid = some s →
      Routes.killRoute db pid now =
        Db.updateSessionStatus db s.id SessionStatus.EXITED none now) := by
  refine ⟨?_, ?_, ?_, ?_⟩
  · intro s hs hid
    rw [Db.updateSessionStatus, List.mem_map]
    exact ⟨s, hs, by simp [hid]⟩
  · intro s hs hid
    rw [Db.updateSessionStatus, List.mem_map]
    exact ⟨s, hs, by simp [hid]⟩
  · intro s' hs'
    rw [Db.updateSessionStatus, List.mem_map] at hs'
    obtain ⟨s, hs, rfl⟩ := hs'
    by_cases h : s.id = id
    · exact ⟨s, hs, by simp [h]⟩
    · exact ⟨s, hs, by simp [h]⟩
  · intro pid s hgs
    rw [Routes.killRoute, hgs]

/-- Witness for the C9 theorem on a concrete two-row registry. -/
theorem updateSessionStatus_noPhase_frame_witness :
    { sampleA with status := SessionStatus.EXITED, phase := none, lastActivityAt := "T2" } ∈
      Db.updateSessionStatus [sampleA, sampleB] "a" SessionStatus.EXITED none "T2" ∧
    sampleB ∈ Db.updateSessionStatus [sampleA, sampleB] "a" SessionStatus.EXITED none "T2" :=
  ⟨(updateSessionStatus_noPhase_frame [sampleA, sampleB] "a" SessionStatus.EXITED "T2").1
      sampleA (by simp) (by rfl),
   (updateSessionStatus_noPhase_frame [sampleA, sampleB] "a" SessionStatus.EXITED "T2").2.1
      sampleB (by simp) (by decide)⟩

/-- C10: a subscribe, input or key message whose sessionId matches no
record by id or by tmux name is not rejected: the raw sessionId is used
verbatim as the tmux session name to form the pane target, and no
last-activity update is performed. -/
theorem unregistered_sessions_passthrough (st : Ws.EngineState) (db : List Session)
    (sid pk key init now : String)
    (hres : Ws.resolveSession db sid = none)
    (hfresh : Ws.lookupSub st (Ws.subKey sid pk) = none) :
    Ws.tmuxNameFor db sid = sid ∧
    Ws.handleInput db sid pk true now = (sid ++ ":" ++ pk, db, []) ∧
    ((Ws.handleKey db sid pk key true now).1 = sid ++ ":" ++ pk ∧
      (Ws.handleKey db sid pk key true now).2.2.1 = db ∧
      (Ws.handleKey db sid pk key true now).2.2.2 = []) ∧
    ((Ws.handleSubscribe st db sid pk true init now).2.1 = db ∧
      Ws.lookupSub (Ws.handleSubscribe st db sid pk true init now).1 (Ws.subKey sid pk) =
        some { sessionId := sid, paneKey := pk, tmuxTarget := sid ++ ":" ++ pk,
               intervalId := st.nextTimer, lastContent := "" } ∧
      (Ws.handleSubscribe st db sid pk true init now).2.2 =
        [Ws.OutMsg.snapshot sid pk init,
         Ws.OutMsg.statusMsg sid SessionStatus.RUNNING
           (some (PhaseDetector.detectPhase init)) now]) := by
  have hname : Ws.tmuxNameFor db sid = sid := by
    rw [Ws.tmuxNameFor, hres]
  refine ⟨hname, ?_, ?_, ?_⟩
  · rw [Ws.handleInput, hres, hname]
    rfl
  · rw [Ws.handleKey, hres, hname]
    exact ⟨rfl, rfl, rfl⟩
  · rw [Ws.handleSubscribe, hfresh, hres, hname]
    refine ⟨rfl, ?_, rfl⟩
    simp [Ws.lookupSub]

/-- Witness for the C10 theorem on an empty registry and a fresh
connection. -/
theorem unregistered_sessions_passthrough_witness :
    Ws.handleInput [] "s1" "0.0" true "T" = ("s1" ++ ":" ++ "0.0", [], []) :=
  (unregistered_sessions_passthrough Ws.emptyEngine [] "s1" "0.0" "Up" "h" "T"
    (by rfl) (by rfl)).2.1

/-- C7: when the tmux create invocation fails the registry is left without
any record for the new session, and when creation succeeds a later
preamble or autorun failure does not roll the record back. -/
theorem createRoute_atomic (db : List Session) (id tmuxSessionName sessionTitle : String)
    (workspaceId : Option String) (template : Option Template) (now : String) :
    (∀ pipeOk preFail autoRunOk,
      Routes.createRoute db id tmuxSessionName sessionTitle workspaceId template now
        false pipeOk preFail autoRunOk = (db, false)) ∧
    (id ∉ db.map (fun s => s.id) →
      ∀ pipeOk preFail autoRunOk,
        ∀ s ∈ (Routes.createRoute db id tmuxSessionName sessionTitle workspaceId template now
          false pipeOk preFail autoRunOk).1, s.id ≠ id) ∧
    (∀ preFail autoRunOk,
      Routes.newSessionRecord id tmuxSessionName sessionTitle workspaceId now ∈
        (Routes.createRoute db id tmuxSessionName sessionTitle workspaceId template now
          true true preFail autoRunOk).1) := by
  have hfst : ∀ preFail autoRunOk,
      (Routes.createRoute db id tmuxSessionName sessionTitle workspaceId template now
        true true preFail autoRunOk).1 =
      Db.createSession db id tmuxSessionName sessionTitle SessionStatus.RUNNING
        workspaceId (some SessionPhase.IDLE) now := by
    intro preFail autoRunOk
    cases template with
    | none => rfl
    | some t =>
      cases preFail with
      | none =>
        cases hb : (t.autoRun && (t.command != "") && !autoRunOk) <;>
          simp [Routes.createRoute, hb]
      | some i =>
        by_cases hi : i < t.preCommands.length
        · simp [Routes.createRoute, hi]
        · cases hb : (t.autoRun && (t.command != "") && !autoRunOk) <;>
            simp [Routes.createRoute, hi, hb]
  refine ⟨fun _ _ _ => rfl, ?_, ?_⟩
  · intro hid pipeOk preFail autoRunOk s hs heq
    exact hid (heq ▸ List.mem_map_of_mem (fun s => s.id) hs)
  · intro preFail autoRunOk
    rw [hfst preFail autoRunOk, Db.createSession]
    exact List.mem_append_right _ (List.mem_singleton.mpr rfl)

/-- Auxiliary: the detector scan never changes its accumulator when no
remaining priority exceeds the running maximum. -/
theorem detectPhaseLoop_noupdate (w : String) :
    ∀ (l : List PhaseDetector.PhasePattern) (acc : SessionPhase) (hp : Int),
      (∀ ps ∈ l, ¬(hp < ps.priority)) →
      PhaseDetector.detectPhaseLoop w l acc hp = acc := by
  intro l
  induction l with
  | nil => intro acc hp _; rfl
  | cons p t ih =>
    intro acc hp h
    rw [PhaseDetector.detectPhaseLoop]
    by_cases hm : PhaseDetector.setMatches p w = true
    · rw [if_pos hm, if_neg (h p (List.mem_cons_self p t))]
      exact ih acc hp (fun q hq => h q (List.mem_cons_of_mem p hq))
    · rw [if_neg hm]
      exact ih acc hp (fun q hq => h q (List.mem_cons_of_mem p hq))

/-- Auxiliary: over a strictly priority-descending table whose priorities
all exceed the running maximum, the detector scan keeps its accumulator
when nothing matches and otherwise returns the phase of the matching entry
of maximal priority. -/
theorem detectPhaseLoop_first (w : String) :
    ∀ (l : List PhaseDetector.PhasePattern) (acc : SessionPhase) (hp : Int),
      l.Pairwise (fun a b => b.priority < a.priority) →
      (∀ ps ∈ l, hp < ps.priority) →
      ((∀ ps ∈ l, PhaseDetector.setMatches ps w = false) →
        PhaseDetector.detectPhaseLoop w l acc hp = acc) ∧
      (∀ ps ∈ l, PhaseDetector.setMatches ps w = true →
        (∀ q ∈ l, PhaseDetector.setMatches q w = true → q.priority ≤ ps.priority) →
        PhaseDetector.detectPhaseLoop w l acc hp = ps.phase) := by
  intro l
  induction l with
  | nil =>
    intro acc hp _ _
    exact ⟨fun _ => rfl, fun ps hps => absurd hps (List.not_mem_nil ps)⟩
  | cons p t ih =>
    intro acc hp hpair hbound
    have hall : ∀ b ∈ t, b.priority < p.priority := (List.pairwise_cons.mp hpair).1
    have hrest := (List.pairwise_cons.mp hpair).2
    constructor
    · intro hnone
      rw [PhaseDetector.detectPhaseLoop,
        if_neg (by rw [hnone p (List.mem_cons_self p t)]; decide)]
      exact (ih acc hp hrest (fun q hq => hbound q (List.mem_cons_of_mem p hq))).1
        (fun q hq => hnone q (List.mem_cons_of_mem p hq))
    · intro ps hps hmatch hmax
      by_cases hm : PhaseDetector.setMatches p w = true
      · rw [PhaseDetector.detectPhaseLoop, if_pos hm,
          if_pos (hbound p (List.mem_cons_self p t))]
        have hstop : PhaseDetector.detectPhaseLoop w t p.phase p.priority = p.phase :=
          detectPhaseLoop_noupdate w t p.phase p.priority
            (fun q hq => not_lt.mpr (le_of_lt (hall q hq)))
        rw [hstop]
        rcases List.mem_cons.mp hps with rfl | hps'
        · rfl
        · have h1 : ps.priority ≤ ps.priority := le_refl _
          have h2 : p.priority ≤ ps.priority := hmax p (List.mem_cons_self p t) hm
          exact absurd h2 (not_le.mpr (hall ps hps'))
      · rw [PhaseDetector.detectPhaseLoop, if_neg hm]
        rcases List.mem_cons.mp hps with rfl | hps'
        · rw [hmatch] at hm
          exact absurd rfl hm
        · exact (ih acc hp hrest (fun q hq => hbound q (List.mem_cons_of_mem p hq))).2
            ps hps' hmatch (fun q hq hqm => hmax q (List.mem_cons_of_mem p hq) hqm)

/-- C2: classification scans the trailing fifty-line window and returns
the phase of the highest-priority pattern set with a matching pattern,
with priorities ordered WAITING over ERROR over TESTING over BUILDING over
CODING, defaulting to IDLE when nothing matches; a window matching both a
WAITING prompt pattern and an ERROR pattern classifies as WAITING. -/
theorem detectPhase_correct (output : String) :
    (PhaseDetector.phasePatterns.map (fun ps => (ps.phase, ps.priority)) =
      [(SessionPhase.WAITING, 100), (SessionPhase.ERROR, 90), (SessionPhase.TESTING, 80),
       (SessionPhase.BUILDING, 70), (SessionPhase.CODING, 60)]) ∧
    ((∀ ps ∈ PhaseDetector.phasePatterns,
        PhaseDetector.setMatches ps (PhaseDetector.phaseWindow output 50) = false) →
      PhaseDetector.detectPhase output = SessionPhase.IDLE) ∧
    (∀ ps ∈ PhaseDetector.phasePatterns,
      PhaseDetector.setMatches ps (PhaseDetector.phaseWindow output 50) = true →
      (∀ q ∈ PhaseDetector.phasePatterns,
        PhaseDetector.setMatches q (PhaseDetector.phaseWindow output 50) = true →
        q.priority ≤ ps.priority) →
      PhaseDetector.detectPhase output = ps.phase) ∧
    (PhaseDetector.setMatches PhaseDetector.waitingPatterns
        (PhaseDetector.phaseWindow output 50) = true →
      PhaseDetector.setMatches PhaseDetector.errorPatterns
        (PhaseDetector.phaseWindow output 50) = true →
      PhaseDetector.detectPhase output = SessionPhase.WAITING) := by
  have hpair : PhaseDetector.phasePatterns.Pairwise (fun a b => b.priority < a.priority) := by
    decide
  have hbound : ∀ ps ∈ PhaseDetector.phasePatterns, (-1 : Int) < ps.priority := by
    decide
  have hmain := detectPhaseLoop_first (PhaseDetector.phaseWindow output 50)
    PhaseDetector.phasePatterns SessionPhase.IDLE (-1) hpair hbound
  refine ⟨rfl, hmain.1, hmain.2, ?_⟩
  intro hw _
  refine hmain.2 PhaseDetector.waitingPatterns (by simp [PhaseDetector.phasePatterns]) hw ?_
  have hle : ∀ q ∈ PhaseDetector.phasePatterns,
      q.priority ≤ PhaseDetector.waitingPatterns.priority := by
    decide
  exact fun q hq _ => hle q hq

/-- Witness for the C2 theorem: a window holding both a confirmation
prompt and an error signature classifies as WAITING. -/
theorem detectPhase_correct_witness :
    PhaseDetector.detectPhase "(y/n) ERROR" = SessionPhase.WAITING :=
  (detectPhase_correct "(y/n) ERROR").2.2.2 (by rfl) (by rfl)

/-- Auxiliary: looking up a key in the subscriptions table after the
per-key update map of the poll tick returns the updated entry. -/
theorem lookupSub_map_update (subs : List (String × Ws.Subscription)) (k : String)
    (g : Ws.Subscription → Ws.Subscription) :
    (subs.map (fun p => if p.1 == k then (p.1, g p.2) else p)).find?
        (fun p => p.1 == k) =
      (subs.find? (fun p => p.1 == k)).map (fun p => (p.1, g p.2)) := by
  induction subs with
  | nil => rfl
  | cons h t ih =>
    by_cases hk : h.1 == k
    · simp only [List.map_cons, List.find?_cons]
      rw [if_pos hk]
      simp only [hk]
      rfl
    · simp only [List.map_cons, List.find?_cons]
      rw [if_neg hk]
      simp only [Bool.not_eq_true] at hk
      simp only [hk]
      exact ih

/-- C1 counterexample: after subscribing with initial capture "hello", so
"hello" is the text last delivered to the client for the pane, a poll tick
capturing the byte-identical text still pushes a snapshot message, because
the stored baseline starts as the empty string rather than the delivered
snapshot. -/
theorem pollTick_resends_equal_capture_cex :
    Ws.OutMsg.snapshot "s1" "0.0" "hello" ∈
      (Ws.handleSubscribe Ws.emptyEngine [] "s1" "0.0" true "hello" "T0").2.2 ∧
    (Ws.pollTick (Ws.handleSubscribe Ws.emptyEngine [] "s1" "0.0" true "hello" "T0").1
        [] (Ws.subKey "s1" "0.0") true "hello" "T1").2.2.any Ws.OutMsg.isSnapshot = true := by
  constructor
  · decide
  · decide

/-- C1 amended: a poll tick pushes a snapshot exactly when the captured
text differs byte-for-byte from the stored lastContent baseline; that
baseline is initialised to the empty string on subscribe, not to the
initially delivered snapshot, and becomes the pushed text after each
push. -/
theorem pollTick_push_iff_baseline_change (st : Ws.EngineState) (db : List Session)
    (k content now : String) (sub : Ws.Subscription)
    (hl : Ws.lookupSub st k = some sub) :
    ((Ws.pollTick st db k true content now).2.2.any Ws.OutMsg.isSnapshot =
      (content != sub.lastContent)) ∧
    (content ≠ sub.lastContent →
      Ws.lookupSub (Ws.pollTick st db k true content now).1 k =
        some { sub with lastContent := content }) ∧
    (∀ st2 db2 sid pk init now2,
      Ws.lookupSub st2 (Ws.subKey sid pk) = none →
      Ws.lookupSub (Ws.handleSubscribe st2 db2 sid pk true init now2).1
          (Ws.subKey sid pk) =
        some { sessionId := sid, paneKey := pk,
               tmuxTarget := Ws.tmuxNameFor db2 sid ++ ":" ++ pk,
               intervalId := st2.nextTimer, lastContent := "" }) := by
  refine ⟨?_, ?_, ?_⟩
  · cases hc : (content != sub.lastContent) with
    | true => simp [Ws.pollTick, hl, hc, Ws.OutMsg.isSnapshot]
    | false => simp [Ws.pollTick, hl, hc]
  · intro hne
    have hc : (content != sub.lastContent) = true := bne_iff_ne.mpr hne
    simp only [Ws.pollTick, hl, hc, if_true, if_pos]
    rw [Ws.lookupSub]
    obtain ⟨pr, hpr, hpr2⟩ : ∃ pr, st.subs.find? (fun p => p.1 == k) = some pr ∧ pr.2 = sub := by
      rw [Ws.lookupSub] at hl
      obtain ⟨pr, hpr, h2⟩ := Option.map_eq_some'.mp hl
      exact ⟨pr, hpr, h2⟩
    rw [lookupSub_map_update st.subs k (fun s => { s with lastContent := content }), hpr]
    simp [hpr2]
  · intro st2 db2 sid pk init now2 hfresh
    have h2 : (Ws.lookupSub st2 (Ws.subKey sid pk)).isSome = false := by
      rw [hfresh]; rfl
    simp only [Ws.handleSubscribe, h2, Bool.false_eq_true, if_false, if_true]
    simp [Ws.lookupSub]

/-- Witness for the amended C1 theorem on a one-subscription engine
state. -/
theorem pollTick_push_iff_baseline_change_witness :
    (Ws.pollTick sampleEngine [] (Ws.subKey "s1" "0.0") true "x" "T1").2.2.any
      Ws.OutMsg.isSnapshot = ("x" != "") :=
  (pollTick_push_iff_baseline_change sampleEngine [] (Ws.subKey "s1" "0.0") "x" "T1"
    sampleSub (by rfl)).1

/-- C3: per connection the subscription table and timer set hold at most
one entry per joined key; subscribing to an already active key is a no-op
creating no second timer; after unsubscribing an active key neither the
table entry nor its running timer remains. -/
theorem subscription_lifecycle (st : Ws.EngineState) (db : List Session)
    (sid pk init now : String) (ok : Bool) (hinv : Ws.Inv st) :
    ((Ws.lookupSub st (Ws.subKey sid pk)).isSome = true →
      Ws.handleSubscribe st db sid pk ok init now = (st, db, [])) ∧
    Ws.Inv (Ws.handleSubscribe st db sid pk ok init now).1 ∧
    Ws.Inv (Ws.handleUnsubscribe st sid pk) ∧
    Ws.lookupSub (Ws.handleUnsubscribe st sid pk) (Ws.subKey sid pk) = none ∧
    (∀ sub, Ws.lookupSub st (Ws.subKey sid pk) = some sub →
      sub.intervalId ∉ (Ws.handleUnsubscribe st sid pk).timers) := by
  obtain ⟨hkeys, htimers, hsubbound, htbound⟩ := hinv
  refine ⟨?_, ?_, ?_, ?_, ?_⟩
  · intro h
    simp only [Ws.handleSubscribe, h, if_true]
  · by_cases h : (Ws.lookupSub st (Ws.subKey sid pk)).isSome
    · simp only [Ws.handleSubscribe, h, if_true]
      exact ⟨hkeys, htimers, hsubbound, htbound⟩
    · cases hok : ok with
      | false =>
        simp only [Ws.handleSubscribe, h, if_false, Bool.false_eq_true]
        exact ⟨hkeys, htimers, hsubbound, htbound⟩
      | true =>
        have hnone : Ws.lookupSub st (Ws.subKey sid pk) = none :=
          Option.not_isSome_iff_eq_none.mp h
        have hfind : st.subs.find? (fun p => p.1 == Ws.subKey sid pk) = none := by
          rw [Ws.lookupSub] at hnone
          exact Option.map_eq_none.mp hnone
        have hnotkey : Ws.subKey sid pk ∉ st.subs.map Prod.fst := by
          intro hmem
          obtain ⟨p, hp, hpk⟩ := List.mem_map.mp hmem
          have := List.find?_eq_none.mp hfind p hp
          exact this (by simp [hpk])
        have hnott : st.nextTimer ∉ st.timers := fun hmem =>
          lt_irrefl _ (htbound _ hmem)
        simp only [Ws.handleSubscribe, h, if_false, Bool.false_eq_true]
        refine ⟨?_, ?_, ?_, ?_⟩
        · exact List.nodup_cons.mpr ⟨hnotkey, hkeys⟩
        · exact List.nodup_cons.mpr ⟨hnott, htimers⟩
        · intro p hp
          rcases List.mem_cons.mp hp with rfl | hp'
          · exact Nat.lt_succ_self _
          · exact Nat.lt_succ_of_lt (hsubbound p hp')
        · intro t ht
          rcases List.mem_cons.mp ht with rfl | ht'
          · exact Nat.lt_succ_self _
          · exact Nat.lt_succ_of_lt (htbound t ht')
  · rw [Ws.handleUnsubscribe]
    cases hl : Ws.lookupSub st (Ws.subKey sid pk) with
    | none => exact ⟨hkeys, htimers, hsubbound, htbound⟩
    | some sub =>
      refine ⟨?_, ?_, ?_, ?_⟩
      · exact ((List.filter_sublist _).map Prod.fst).nodup hkeys
      · exact htimers.erase _
      · exact fun p hp => hsubbound p (List.mem_of_mem_filter hp)
      · exact fun t ht => htbound t (List.mem_of_mem_erase ht)
  · rw [Ws.handleUnsubscribe]
    cases hl : Ws.lookupSub st (Ws.subKey sid pk) with
    | none => exact hl
    | some sub =>
      rw [Ws.lookupSub]
      have : (st.subs.filter (fun p => p.1 != Ws.subKey sid pk)).find?
          (fun p => p.1 == Ws.subKey sid pk) = none := by
        apply List.find?_eq_none.mpr
        intro p hp
        have := List.of_mem_filter hp
        simp only [bne_iff_ne, ne_eq] at this
        simp [this]
      rw [this]
      rfl
  · intro sub hl
    rw [Ws.handleUnsubscribe, hl]
    intro hmem
    exact ((List.Nodup.mem_erase_iff htimers).mp hmem).1 rfl

/-- Witness for the C3 theorem on a fresh connection state. -/
theorem subscription_lifecycle_witness :
    Ws.Inv (Ws.handleSubscribe Ws.emptyEngine [] "s1" "0.0" true "h" "T").1 ∧
    Ws.lookupSub (Ws.handleUnsubscribe Ws.emptyEngine "s1" "0.0") (Ws.subKey "s1" "0.0") =
      none :=
  ⟨(subscription_lifecycle Ws.emptyEngine [] "s1" "0.0" "h" "T" true
      ⟨List.nodup_nil, List.nodup_nil, fun p hp => absurd hp (List.not_mem_nil p),
       fun t ht => absurd ht (List.not_mem_nil t)⟩).2.1,
   (subscription_lifecycle Ws.emptyEngine [] "s1" "0.0" "h" "T" true
      ⟨List.nodup_nil, List.nodup_nil, fun p hp => absurd hp (List.not_mem_nil p),
       fun t ht => absurd ht (List.not_mem_nil t)⟩).2.2.2.1⟩

/-- Auxiliary: the response rows of the reconcile loop are the per-record
status-corrected views, independent of the threaded registry. -/
theorem reconcileCore_view (live : List String) (now : String) :
    ∀ (rest cur : List Session),
      (Routes.reconcileCore live now cur rest).2.1 = rest.map (Routes.viewOf live) := by
  intro rest
  induction rest with
  | nil => intro cur; rfl
  | cons s t ih =>
    intro cur
    by_cases h1 : (live.contains s.tmuxSession && (s.status == SessionStatus.EXITED)) = true
    · simp only [Routes.reconcileCore, h1, if_true, List.map_cons]
      rw [Routes.viewOf, if_pos h1, ih]
    · by_cases h2 : ((!live.contains s.tmuxSession) && (s.status == SessionStatus.RUNNING)) = true
      · simp only [Routes.reconcileCore, h1, h2, if_true, if_false, Bool.false_eq_true,
          List.map_cons]
        rw [Routes.viewOf, if_neg h1, if_pos h2, ih]
      · simp only [Routes.reconcileCore, h1, h2, if_false, Bool.false_eq_true, List.map_cons]
        rw [Routes.viewOf, if_neg h1, if_neg h2, ih]

/-- Auxiliary: the writes of the reconcile loop are the per-record flip
writes, independent of the threaded registry. -/
theorem reconcileCore_writes (live : List String) (now : String) :
    ∀ (rest cur : List Session),
      (Routes.reconcileCore live now cur rest).2.2 = rest.filterMap (Routes.writeOf live) := by
  intro rest
  induction rest with
  | nil => intro cur; rfl
  | cons s t ih =>
    intro cur
    by_cases h1 : (live.contains s.tmuxSession && (s.status == SessionStatus.EXITED)) = true
    · simp only [Routes.reconcileCore, h1, if_true, List.filterMap_cons]
      rw [Routes.writeOf, if_pos h1, ih]
    · by_cases h2 : ((!live.contains s.tmuxSession) && (s.status == SessionStatus.RUNNING)) = true
      · simp only [Routes.reconcileCore, h1, h2, if_true, if_false, Bool.false_eq_true,
          List.filterMap_cons]
        rw [Routes.writeOf, if_neg h1, if_pos h2, ih]
      · simp only [Routes.reconcileCore, h1, h2, if_false, Bool.false_eq_true,
          List.filterMap_cons]
        rw [Routes.writeOf, if_neg h1, if_neg h2, ih]

/-- Auxiliary: the registry left behind by the reconcile loop is the
sequential application of its writes. -/
theorem reconcileCore_db (live : List String) (now : String) :
    ∀ (rest cur : List Session),
      (Routes.reconcileCore live now cur rest).1 =
        Routes.applyWrites cur (rest.filterMap (Routes.writeOf live)) now := by
  intro rest
  induction rest with
  | nil => intro cur; rfl
  | cons s t ih =>
    intro cur
    by_cases h1 : (live.contains s.tmuxSession && (s.status == SessionStatus.EXITED)) = true
    · have hw : Routes.writeOf live s =
          some { id := s.id, status := SessionStatus.RUNNING } := by
        rw [Routes.writeOf, if_pos h1]
      simp only [Routes.reconcileCore, h1, if_true, List.filterMap_cons, hw]
      exact ih _
    · by_cases h2 : ((!live.contains s.tmuxSession) && (s.status == SessionStatus.RUNNING)) = true
      · have hw : Routes.writeOf live s =
            some { id := s.id, status := SessionStatus.EXITED } := by
          rw [Routes.writeOf, if_neg h1, if_pos h2]
        simp only [Routes.reconcileCore, h1, h2, if_true, if_false, Bool.false_eq_true,
          List.filterMap_cons, hw]
        exact ih _
      · have hw : Routes.writeOf live s = none := by
          rw [Routes.writeOf, if_neg h1, if_neg h2]
        simp only [Routes.reconcileCore, h1, h2, if_false, Bool.false_eq_true,
          List.filterMap_cons, hw]
        exact ih _

/-- C4: a reconciliation run returns live EXITED records flipped to
RUNNING and absent RUNNING records flipped to EXITED, persisting each
flip, returns every other persisted record unchanged, surfaces every
unmatched live name as a discovered row, and issues writes only for
persisted records. -/
theorem reconcile_statusFlips (db : List Session) (live : List String) (now : String) :
    (∀ s ∈ db, live.contains s.tmuxSession = true → s.status = SessionStatus.EXITED →
      { s with status := SessionStatus.RUNNING } ∈ (Routes.reconcileRun db live now).2.1 ∧
      ({ id := s.id, status := SessionStatus.RUNNING } : Routes.RegWrite) ∈
        (Routes.reconcileRun db live now).2.2) ∧
    (∀ s ∈ db, live.contains s.tmuxSession = false → s.status = SessionStatus.RUNNING →
      { s with status := SessionStatus.EXITED } ∈ (Routes.reconcileRun db live now).2.1 ∧
      ({ id := s.id, status := SessionStatus.EXITED } : Routes.RegWrite) ∈
        (Routes.reconcileRun db live now).2.2) ∧
    (∀ s ∈ db,
      ¬(live.contains s.tmuxSession = true ∧ s.status = SessionStatus.EXITED) →
      ¬(live.contains s.tmuxSession = false ∧ s.status = SessionStatus.RUNNING) →
      s ∈ (Routes.reconcileRun db live now).2.1) ∧
    (∀ t ∈ live, (∀ s ∈ db, s.tmuxSession ≠ t) →
      Routes.discoveredOf t now ∈ (Routes.reconcileRun db live now).2.1 ∧
      (Routes.discoveredOf t now).discovered = true) ∧
    (∀ w ∈ (Routes.reconcileRun db live now).2.2, ∃ s ∈ db, w.id = s.id) := by
  have hview : (Routes.reconcileRun db live now).2.1 =
      db.map (Routes.viewOf live) ++
        (live.filter (fun t => !((db.map (fun s => s.tmuxSession)).contains t))).map
          (fun t => Routes.discoveredOf t now) := by
    rw [Routes.reconcileRun]
    simp only
    rw [reconcileCore_view]
  have hwrites : (Routes.reconcileRun db live now).2.2 =
      db.filterMap (Routes.writeOf live) := by
    rw [Routes.reconcileRun]
    simp only
    rw [reconcileCore_writes]
  refine ⟨?_, ?_, ?_, ?_, ?_⟩
  · intro s hs hc hst
    have hb : (live.contains s.tmuxSession && (s.status == SessionStatus.EXITED)) = true := by
      rw [hc, hst]
      decide
    constructor
    · rw [hview]
      refine List.mem_append_left _ ?_
      have : Routes.viewOf live s = { s with status := SessionStatus.RUNNING } := by
        rw [Routes.viewOf, if_pos hb]
      exact this ▸ List.mem_map_of_mem _ hs
    · rw [hwrites]
      refine List.mem_filterMap.mpr ⟨s, hs, ?_⟩
      rw [Routes.writeOf, if_pos hb]
  · intro s hs hc hst
    have hb1 : (live.contains s.tmuxSession && (s.status == SessionStatus.EXITED)) = false := by
      rw [hc]
      exact Bool.false_and _
    have hb2 : ((!live.contains s.tmuxSession) && (s.status == SessionStatus.RUNNING)) = true := by
      rw [hc, hst]
      decide
    constructor
    · rw [hview]
      refine List.mem_append_left _ ?_
      have : Routes.viewOf live s = { s with status := SessionStatus.EXITED } := by
        rw [Routes.viewOf, if_neg (by rw [hb1]; decide), if_pos hb2]
      exact this ▸ List.mem_map_of_mem _ hs
    · rw [hwrites]
      refine List.mem_filterMap.mpr ⟨s, hs, ?_⟩
      rw [Routes.writeOf, if_neg (by rw [hb1]; decide), if_pos hb2]
  · intro s hs hn1 hn2
    have hb1 : (live.contains s.tmuxSession && (s.status == SessionStatus.EXITED)) = false := by
      by_cases hc : live.contains s.tmuxSession = true
      · have hne : s.status ≠ SessionStatus.EXITED := fun h => hn1 ⟨hc, h⟩
        rw [hc, Bool.true_and]
        exact beq_eq_false_iff_ne.mpr hne
      · rw [eq_false_of_ne_true hc]
        exact Bool.false_and _
    have hb2 : ((!live.contains s.tmuxSession) && (s.status == SessionStatus.RUNNING)) = false := by
      by_cases hc : live.contains s.tmuxSession = true
      · rw [hc]
        rfl
      · have hc' : live.contains s.tmuxSession = false := eq_false_of_ne_true hc
        have hne : s.status ≠ SessionStatus.RUNNING := fun h => hn2 ⟨hc', h⟩
        rw [hc', Bool.not_false, Bool.true_and]
        exact beq_eq_false_iff_ne.mpr hne
    rw [hview]
    refine List.mem_append_left _ ?_
    have : Routes.viewOf live s = s := by
      rw [Routes.viewOf, if_neg (by rw [hb1]; decide), if_neg (by rw [hb2]; decide)]
    exact this ▸ List.mem_map_of_mem _ hs
  · intro t ht hfresh
    refine ⟨?_, rfl⟩
    rw [hview]
    refine List.mem_append_right _ ?_
    refine List.mem_map_of_mem _ ?_
    refine List.mem_filter.mpr ⟨ht, ?_⟩
    have hno : t ∉ db.map (fun s => s.tmuxSession) := by
      intro hmem
      obtain ⟨s, hs, heq⟩ := List.mem_map.mp hmem
      exact hfresh s hs heq
    have : (db.map (fun s => s.tmuxSession)).contains t = false := by
      simpa using hno
    rw [this]
    rfl
  · intro w hw
    rw [hwrites] at hw
    obtain ⟨s, hs, hws⟩ := List.mem_filterMap.mp hw
    refine ⟨s, hs, ?_⟩
    rw [Routes.writeOf] at hws
    split_ifs at hws <;> simp only [Option.some.injEq] at hws <;> rw [← hws]

/-- Witness for the C4 theorem on a concrete registry and live list: the
absent RUNNING record flips to EXITED, the live EXITED record flips to
RUNNING, and the unmatched live name is surfaced as discovered. -/
theorem reconcile_statusFlips_witness :
    { sampleB with status := SessionStatus.RUNNING } ∈
      (Routes.reconcileRun [sampleA, sampleB] ["ccp_b", "ccp_new"] "T").2.1 ∧
    ({ id := "a", status := SessionStatus.EXITED } : Routes.RegWrite) ∈
      (Routes.reconcileRun [sampleA, sampleB] ["ccp_b", "ccp_new"] "T").2.2 ∧
    Routes.discoveredOf "ccp_new" "T" ∈
      (Routes.reconcileRun [sampleA, sampleB] ["ccp_b", "ccp_new"] "T").2.1 :=
  ⟨((reconcile_statusFlips [sampleA, sampleB] ["ccp_b", "ccp_new"] "T").1 sampleB
      (by simp) (by rfl) (by rfl)).1,
   by
    have := ((reconcile_statusFlips [sampleA, sampleB] ["ccp_b", "ccp_new"] "T").2.1 sampleA
      (by simp) (by rfl) (by rfl)).2
    exact this,
   ((reconcile_statusFlips [sampleA, sampleB] ["ccp_b", "ccp_new"] "T").2.2.2.1 "ccp_new"
      (by simp) (by decide)).1⟩

/-- C6 counterexample: with one stale persisted record and one unmatched
live session, the returned list is not ordered by descending
lastActivityAt, because the discovered row is appended last while carrying
the current time as its lastActivityAt; the one-row registry input is
trivially sorted. -/
theorem reconcile_ordering_cex :
    ¬ ((Routes.reconcileRun [sampleB] ["ccp_new"] "Z9").2.1.Pairwise
        (fun a b => tsLe b.lastActivityAt a.lastActivityAt = true)) := by
  intro h
  have h2 := List.pairwise_cons.mp (by
    have : (Routes.reconcileRun [sampleB] ["ccp_new"] "Z9").2.1 =
        [sampleB, Routes.discoveredOf "ccp_new" "Z9"] := by rfl
    rw [this] at h
    exact h)
  have h3 := h2.1 (Routes.discoveredOf "ccp_new" "Z9") (by simp)
  have : ¬(tsLe (Routes.discoveredOf "ccp_new" "Z9").lastActivityAt sampleB.lastActivityAt = true) := by
    decide
  exact this h3

/-- C6 amended: the persisted part of the reconciled list preserves the
registry order, hence stays sorted most-recently-active first whenever the
registry list is, and keeps each record's lastActivityAt; the synthesized
discovered rows are appended after all persisted rows and carry the
current time as lastActivityAt, so the combined list need not be globally
sorted. -/
theorem reconcile_ordering (db : List Session) (live : List String) (now : String)
    (hsorted : db.Pairwise (fun a b => tsLe b.lastActivityAt a.lastActivityAt = true)) :
    (Routes.reconcileRun db live now).2.1 =
      db.map (Routes.viewOf live) ++
        (live.filter (fun t => !((db.map (fun s => s.tmuxSession)).contains t))).map
          (fun t => Routes.discoveredOf t now) ∧
    (db.map (Routes.viewOf live)).Pairwise
      (fun a b => tsLe b.lastActivityAt a.lastActivityAt = true) ∧
    (∀ s, (Routes.viewOf live s).lastActivityAt = s.lastActivityAt) ∧
    (∀ t, (Routes.discoveredOf t now).lastActivityAt = now) := by
  have hlast : ∀ s, (Routes.viewOf live s).lastActivityAt = s.lastActivityAt := by
    intro s
    rw [Routes.viewOf]
    split_ifs <;> rfl
  refine ⟨?_, ?_, hlast, fun t => rfl⟩
  · rw [Routes.reconcileRun]
    simp only
    rw [reconcileCore_view]
  · rw [List.pairwise_map]
    refine hsorted.imp ?_
    intro a b hab
    rw [hlast, hlast]
    exact hab

/-- Witness for the amended C6 theorem on a sorted two-row registry with
one unmatched live session. -/
theorem reconcile_ordering_witness :
    (Routes.reconcileRun [sampleB, sampleA] ["ccp_new"] "Z9").2.1 =
      [sampleB, sampleA].map (Routes.viewOf ["ccp_new"]) ++
        (["ccp_new"].filter
          (fun t => !(([sampleB, sampleA].map (fun s => s.tmuxSession)).contains t))).map
          (fun t => Routes.discoveredOf t "Z9") :=
  (reconcile_ordering [sampleB, sampleA] ["ccp_new"] "Z9" (by decide)).1

/-- C5 counterexample: the first run flips the absent RUNNING record to
EXITED; repeating the run on the resulting registry with the same live
list and the same clock returns a different view, because the persisted
flip nulled the stored phase and advanced lastActivityAt while the first
view kept the old values. -/
theorem reconcile_view_not_idempotent_cex :
    (Routes.reconcileRun (Routes.reconcileRun [sampleA] [] "T1").1 [] "T1").2.1 ≠
      (Routes.reconcileRun [sampleA] [] "T1").2.1 := by
  decide

/-- Auxiliary: applying a write list is a per-row fold over the writes. -/
theorem applyWrites_map (now : String) :
    ∀ (ws : List Routes.RegWrite) (db : List Session),
      Routes.applyWrites db ws now =
        db.map (fun s => ws.foldl (Routes.stepWrite now) s) := by
  intro ws
  induction ws with
  | nil => intro db; simp [Routes.applyWrites]
  | cons w t ih =>
    intro db
    have hstep : Routes.applyWrites db (w :: t) now =
        Routes.applyWrites (db.map (fun s => Routes.stepWrite now s w)) t now := rfl
    rw [hstep, ih, List.map_map]
    rfl

/-- Auxiliary: a fold over writes that all leave the row unchanged is the
identity. -/
theorem foldWrites_fixed (now : String) :
    ∀ (ws : List Routes.RegWrite) (s : Session),
      (∀ w ∈ ws, Routes.stepWrite now s w = s) →
      ws.foldl (Routes.stepWrite now) s = s := by
  intro ws
  induction ws with
  | nil => intro s _; rfl
  | cons w t ih =>
    intro s h
    have hw := h w (List.mem_cons_self w t)
    rw [List.foldl_cons, hw]
    exact ih s (fun w' hw' => h w' (List.mem_cons_of_mem w hw'))

/-- Auxiliary: a fold over writes in which every write matching the row
equals a single write w0 applies w0 once. -/
theorem foldWrites_single (now : String) :
    ∀ (ws : List Routes.RegWrite) (s : Session) (w0 : Routes.RegWrite),
      w0.id = s.id →
      (∀ w ∈ ws, w.id = s.id → w = w0) →
      w0 ∈ ws →
      ws.foldl (Routes.stepWrite now) s =
        { s with status := w0.status, phase := none, lastActivityAt := now } := by
  intro ws
  induction ws with
  | nil => intro s w0 _ _ hmem; exact absurd hmem (List.not_mem_nil w0)
  | cons w t ih =>
    intro s w0 hid huniq hmem
    by_cases hw : w.id = s.id
    · have hww0 : w = w0 := huniq w (List.mem_cons_self w t) hw
      subst hww0
      have hstep : Routes.stepWrite now s w =
          { s with status := w.status, phase := none, lastActivityAt := now } := by
        rw [Routes.stepWrite, if_pos (by simp [hw])]
      rw [List.foldl_cons, hstep]
      apply foldWrites_fixed
      intro w' hw'
      by_cases hw'id : w'.id =
          ({ s with status := w.status, phase := none, lastActivityAt := now } : Session).id
      · have : w' = w := huniq w' (List.mem_cons_of_mem w hw') hw'id
        subst this
        rw [Routes.stepWrite, if_pos (by simp [hw'id])]
      · rw [Routes.stepWrite, if_neg (by simp only [beq_iff_eq]; exact fun h => hw'id h.symm)]
    · have hstep : Routes.stepWrite now s w = s := by
        rw [Routes.stepWrite, if_neg (by simpa using fun h => hw h.symm)]
      have hmem' : w0 ∈ t := by
        rcases List.mem_cons.mp hmem with rfl | hmem'
        · exact absurd hid hw
        · exact hmem'
      rw [List.foldl_cons, hstep]
      exact ih s w0 hid (fun w' hw' => huniq w' (List.mem_cons_of_mem w hw')) hmem'

/-- Auxiliary: a flip write carries the id of its record. -/
theorem writeOf_id (live : List String) (s : Session) (w : Routes.RegWrite)
    (h : Routes.writeOf live s = some w) : w.id = s.id := by
  rw [Routes.writeOf] at h
  split_ifs at h <;> simp only [Option.some.injEq] at h <;> rw [← h]

/-- Auxiliary: the registry after a reconciliation run is the original with
each flipped record status-corrected, phase nulled and lastActivityAt
refreshed, provided the registry ids are unique. -/
theorem reconcileRun_db_eq (db : List Session) (live : List String) (now : String)
    (hids : (db.map (fun s => s.id)).Nodup) :
    (Routes.reconcileRun db live now).1 =
      db.map (fun s =>
        match Routes.writeOf live s with
        | some w => { s with status := w.status, phase := none, lastActivityAt := now }
        | none => s) := by
  have hinj : ∀ a ∈ db, ∀ b ∈ db, a.id = b.id → a = b := by
    intro a ha b hb hab
    exact List.inj_on_of_nodup_map hids ha hb hab
  have h1 : (Routes.reconcileRun db live now).1 =
      Routes.applyWrites db (db.filterMap (Routes.writeOf live)) now := by
    rw [Routes.reconcileRun]
    simp only
    rw [reconcileCore_db]
  rw [h1, applyWrites_map]
  apply List.map_congr_left
  intro s hs
  cases hw : Routes.writeOf live s with
  | none =>
    apply foldWrites_fixed
    intro w hwmem
    obtain ⟨s', hs', hws'⟩ := List.mem_filterMap.mp hwmem
    have hwid := writeOf_id live s' w hws'
    rw [Routes.stepWrite, if_neg]
    simp only [beq_iff_eq]
    intro heq
    have : s' = s := hinj s' hs' s hs (by rw [← hwid, heq])
    subst this
    rw [hw] at hws'
    exact Option.noConfusion hws'
  | some w0 =>
    have hid : w0.id = s.id := writeOf_id live s w0 hw
    apply foldWrites_single now _ s w0 hid
    · intro w hwmem hwid
      obtain ⟨s', hs', hws'⟩ := List.mem_filterMap.mp hwmem
      have : s' = s := hinj s' hs' s hs (by rw [← writeOf_id live s' w hws', hwid])
      subst this
      rw [hw] at hws'
      exact (Option.some.inj hws').symm ▸ rfl
    · exact List.mem_filterMap.mpr ⟨s, hs, hw⟩

/-- Auxiliary: a record on which neither flip condition holds produces no
write. -/
theorem writeOf_eq_none (live : List String) (s : Session)
    (h1 : (live.contains s.tmuxSession && (s.status == SessionStatus.EXITED)) = false)
    (h2 : ((!live.contains s.tmuxSession) && (s.status == SessionStatus.RUNNING)) = false) :
    Routes.writeOf live s = none := by
  rw [Routes.writeOf, if_neg (by rw [h1]; decide), if_neg (by rw [h2]; decide)]

/-- Auxiliary: a record corrected by its own flip write needs no further
flip against the same live list. -/
theorem writeOf_fix_none (live : List String) (now : String) (s : Session) :
    Routes.writeOf live
      (match Routes.writeOf live s with
        | some w => { s with status := w.status, phase := none, lastActivityAt := now }
        | none => s) = none := by
  cases hw : Routes.writeOf live s with
  | none => exact hw
  | some w =>
    rw [Routes.writeOf] at hw
    by_cases h1 : (live.contains s.tmuxSession && (s.status == SessionStatus.EXITED)) = true
    · rw [if_pos h1] at hw
      have hc : live.contains s.tmuxSession = true := (Bool.and_eq_true _ _ ▸ h1).1
      obtain rfl := Option.some.inj hw
      apply writeOf_eq_none
      · show (live.contains s.tmuxSession &&
            (SessionStatus.RUNNING == SessionStatus.EXITED)) = false
        rw [hc]
        decide
      · show ((!live.contains s.tmuxSession) &&
            (SessionStatus.RUNNING == SessionStatus.RUNNING)) = false
        rw [hc]
        decide
    · rw [if_neg h1] at hw
      by_cases h2 : ((!live.contains s.tmuxSession) && (s.status == SessionStatus.RUNNING)) = true
      · rw [if_pos h2] at hw
        have hc : live.contains s.tmuxSession = false := by
          have hnot := (Bool.and_eq_true _ _ ▸ h2).1
          cases hcc : live.contains s.tmuxSession
          · rfl
          · rw [hcc] at hnot; exact absurd hnot (by decide)
        obtain rfl := Option.some.inj hw
        apply writeOf_eq_none
        · show (live.contains s.tmuxSession &&
              (SessionStatus.EXITED == SessionStatus.EXITED)) = false
          rw [hc]
          decide
        · show ((!live.contains s.tmuxSession) &&
              (SessionStatus.EXITED == SessionStatus.RUNNING)) = false
          rw [hc]
          decide
      · rw [if_neg h2] at hw
        exact Option.noConfusion hw

/-- C5 amended: the second of two back-to-back reconciliation runs with an
unchanged live list issues zero registry writes; the returned view is only
guaranteed to coincide when the first run flipped nothing, since a flip
nulls the persisted phase and refreshes lastActivityAt while the first
view keeps the old values, and discovered rows carry the clock of their
own run. -/
theorem reconcile_second_run_no_writes (db : List Session) (live : List String)
    (now now2 : String) (db2 : List Session)
    (hids : (db.map (fun s => s.id)).Nodup)
    (hdb2 : ∀ s ∈ db2, s ∈ (Routes.reconcileRun db live now).1) :
    (Routes.reconcileRun db2 live now2).2.2 = [] := by
  have hw2 : (Routes.reconcileRun db2 live now2).2.2 =
      db2.filterMap (Routes.writeOf live) := by
    rw [Routes.reconcileRun]
    simp only
    rw [reconcileCore_writes]
  rw [hw2, List.filterMap_eq_nil_iff]
  intro s2 hs2
  have hmem := hdb2 s2 hs2
  rw [reconcileRun_db_eq db live now hids] at hmem
  obtain ⟨s, _, rfl⟩ := List.mem_map.mp hmem
  exact writeOf_fix_none live now s

/-- Witness for the amended C5 theorem on a concrete one-row registry whose
record gets flipped by the first run. -/
theorem reconcile_second_run_no_writes_witness :
    (Routes.reconcileRun (Routes.reconcileRun [sampleA] [] "T1").1 [] "T2").2.2 = [] :=
  reconcile_second_run_no_writes [sampleA] [] "T1" "T2"
    (Routes.reconcileRun [sampleA] [] "T1").1 (by decide) (fun s hs => hs)

/-- Witness for the C7 theorem: failed tmux create leaves an empty
registry, and a created record survives a failed first preamble command. -/
theorem createRoute_atomic_witness :
    Routes.createRoute [] "n" "ccp_n" "t" none none "T" false true none true = ([], false) ∧
    Routes.newSessionRecord "n" "ccp_n" "t" none "T" ∈
      (Routes.createRoute [] "n" "ccp_n" "t" none (some sampleTemplate) "T"
        true true (some 0) false).1 :=
  ⟨(createRoute_atomic [] "n" "ccp_n" "t" none none "T").1 true none true,
   (createRoute_atomic [] "n" "ccp_n" "t" none (some sampleTemplate) "T").2.2 (some 0) false⟩

end Trinetra
